import Mathlib

/-!
Verification of the OmFileReader TypeScript facade (`src/lib/OmFileReader.ts`)
of the omfileformat wasm bindings.  The facade wraps a wasm build of the
om-file-format C library; the wasm functions themselves are not part of the
repository's TypeScript sources, so they appear here either as abstract
parameters (the decode pipeline) or as structures modelled from the spec
(the header/trailer probing API, the child-location lookup).  Everything
else is translated directly from the TypeScript source.
-/

namespace OmFile

/-- Half-open request interval over one dimension (`Range` in
`src/lib/types.ts`).  JavaScript numbers can be negative, hence `Int`
bounds.  The source field `end` is a Lean keyword and is called `stop`
here. -/
structure OmRange where
  start : Int
  stop : Int
  deriving Repr, DecidableEq

/-- Pointer into the backing store (`OffsetSize` in `src/lib/types.ts`). -/
structure OffsetSize where
  offset : Int
  size : Int
  deriving Repr, DecidableEq

/-- Modelled from the spec: the parsed metadata state that the wasm
`om_variable_get_*` accessors expose for one variable (spec section 4.2,
VariableDirectory).  The TypeScript reader holds only a wasm pointer to
this state; the fields below are exactly the quantities the facade
queries through the wasm API:
* `dataType`, `compression`: the numeric tags returned by
  `om_variable_get_type` / `om_variable_get_compression`;
* `scaleFactor`, `addOffset`: the f64 parameters of the numeric transform;
* `dimensions`, `chunkDimensions`: the extents returned element-wise by
  `om_variable_get_dimension_value` / `om_variable_get_chunk_value`;
* `name`: the optional name (`om_variable_get_name`, empty size means no
  name, which `getName` surfaces as `null`);
* `children`: the child `(offset, size)` table behind
  `om_variable_get_children`;
* `scalar`: the scalar payload behind `om_variable_get_scalar`:
  `none` models the call returning a non-OK error code, `some none`
  models a null data pointer, `some (some v)` a readable raw value. -/
structure Var where
  dataType : Nat
  compression : Nat
  scaleFactor : Float
  addOffset : Float
  dimensions : List Nat
  chunkDimensions : List Nat
  name : Option String
  children : List OffsetSize
  scalar : Option (Option Int)

/-- Reader state (`OmFileReader` class fields).  `omVariable` is the
source's `variable` field (a Lean keyword): `none` before `initialize()`
has completed and again after `dispose()`.  The wasm memory bookkeeping
fields (`variableData`, `variableDataPtr`) only mirror `variable`'s
nullness and are not modelled separately. -/
structure OmFileReader where
  omVariable : Option Var
  offsetSize : Option OffsetSize

/-- Constructor state: every field starts `null`. -/
def newOmFileReader : OmFileReader :=
  { omVariable := none, offsetSize := none }

/-- Failures of the post-validation decode pipeline (the wasm decoder):
`om_decoder_init` returning a non-OK code, `om_decoder_decode_chunks`
failing, or the error slot being set after the data-read loop.  These are
the only throw sites of `readInto` after its argument validation. -/
inductive DecodeFailure where
  | decoderInitFailed (code : Nat)
  | decodeChunksFailed (code : Nat)
  | dataReadError (code : Nat)
  deriving Repr, DecidableEq

/-- Error kinds thrown by the reader facade: one constructor per `throw`
site of `OmFileReader.ts` reachable from the modelled operations, plus
`invalidArrayLength` for the JavaScript `RangeError` that
`new TypedArray(totalSize)` itself raises inside `read` when the extent
product is negative (an odd number of inverted ranges) — a runtime
error, not a source `throw` site. -/
inductive ReaderError where
  | notInitialized
  | invalidDataType (expected got : Nat)
  | mismatchedDimensions (file request : Nat)
  | outputTooSmall (needs : Int) (has : Nat)
  | invalidRange (dim : Nat)
  | invalidArrayLength (len : Int)
  | unsupportedDataType
  | decodeFailed (e : DecodeFailure)
  deriving Repr, DecidableEq

/-- Observable calls issued to the pluggable backend
(`OmFileReaderBackend`): a ranged byte fetch or a total-size query. -/
inductive BackendEvent where
  | getBytes (offset size : Int)
  | count
  deriving Repr, DecidableEq

/-- Modelled from the spec: the deterministic decode pipeline that
`readInto` drives after validation (spec sections 4.3 and 4.4, ReadPlanner
and ChunkDecoder; wasm `om_decoder_*`, outside the TypeScript sources).
Arguments: the variable, the per-dimension read offsets (`readOffsetPtr`,
the range starts), the per-dimension read counts (`readCountPtr`, the
range extents; the source passes all-zero cube offsets and cube
dimensions equal to the read counts, so they are not separate arguments),
the element length of the caller's output buffer (the decode scratch
region is allocated at that size and copied back whole), and the
`ioSizeMerge` / `ioSizeMax` tunables.  It yields either a decode failure
or the final contents of the wasm output region, together with the
backend events the fetch loop issued. -/
def DecodePipeline (α : Type) : Type :=
  Var → List Int → List Int → Nat → Int → Int →
    Except DecodeFailure (List α) × List BackendEvent

/-- Per-dimension validation condition of `readInto` (line 623 of the
source): `start < 0 || end > fileDims[i] || start >= end`. -/
def rangeInvalid (rg : OmRange) (extent : Nat) : Bool :=
  rg.start < 0 || rg.stop > (extent : Int) || rg.start ≥ rg.stop

/-- Index of the first dimension whose range fails validation, mirroring
the source's in-order loop (the loop reads `fileDims[i]`, so the lists
are walked in lockstep). -/
def firstInvalidRange : List OmRange → List Nat → Option Nat
  | [], _ => none
  | _, [] => none
  | rg :: rs, d :: ds =>
    if rangeInvalid rg d then some 0
    else (firstInvalidRange rs ds).map (· + 1)

/-- Product of the per-dimension extents `end - start`, as computed by
`readInto` (`outDims.reduce((a, b) => a * Number(b), 1)`). -/
def rangeProduct (rs : List OmRange) : Int :=
  (rs.map fun rg => rg.stop - rg.start).foldl (fun a b => a * b) 1

/-- Result of one `readInto` call: the outcome (`ok` or the thrown
error), the caller-visible buffer after the call, and the backend events
issued.  The source only copies decoded data back into the caller's
typed array after the whole decode loop succeeds (`copyToTypedArray` at
the end of `decode`), so the buffer is unchanged on every error path. -/
structure ReadIntoOutcome (α : Type) where
  result : Except ReaderError Unit
  buffer : List α
  trace : List BackendEvent

/-- Translation of `OmFileReader.readInto` (source lines 579-669): guard
on initialization, data-type check, rank check, output-size check,
per-dimension range validation, then the decode pipeline.  On success the
caller's buffer is replaced by the first `output.length` elements of the
wasm output region. -/
def readInto {α : Type} (pipe : DecodePipeline α) (r : OmFileReader)
    (dataType : Nat) (output : List α) (dimRanges : List OmRange)
    (ioSizeMax ioSizeMerge : Int) : ReadIntoOutcome α :=
  match r.omVariable with
  | none => ⟨.error .notInitialized, output, []⟩
  | some v =>
    if v.dataType ≠ dataType then
      ⟨.error (.invalidDataType v.dataType dataType), output, []⟩
    else
      let nDims := dimRanges.length
      let fileDims := v.dimensions
      if fileDims.length ≠ nDims then
        ⟨.error (.mismatchedDimensions fileDims.length nDims), output, []⟩
      else
        let totalElements := rangeProduct dimRanges
        if (output.length : Int) < totalElements then
          ⟨.error (.outputTooSmall totalElements output.length), output, []⟩
        else
          match firstInvalidRange dimRanges fileDims with
          | some i => ⟨.error (.invalidRange i), output, []⟩
          | none =>
            let starts := dimRanges.map (·.start)
            let outDims := dimRanges.map fun rg => rg.stop - rg.start
            match pipe v starts outDims output.length ioSizeMerge ioSizeMax with
            | (.error e, tr) => ⟨.error (.decodeFailed e), output, tr⟩
            | (.ok wasmBuf, tr) => ⟨.ok (), wasmBuf.take output.length, tr⟩

/-- Data-type tags accepted by `read`'s output-allocation switch
(`DATA_TYPE_INT8_ARRAY` through `DATA_TYPE_UINT32_ARRAY`, plus the float
and double array tags; the 64-bit array tags fall through to the
`Unsupported data type` default). -/
def readSupportedTypes : List Nat := [12, 13, 14, 15, 16, 17, 20, 21]

/-- Translation of `OmFileReader.read` (source lines 518-569): guard on
initialization, data-type check, then the output-allocation switch.  For
a supported array type the source runs `new TypedArray(totalSize)`
before calling `readInto`; when `totalSize` is negative (the request has
an odd number of inverted ranges) that constructor itself throws a
JavaScript `RangeError: Invalid typed array length`, modelled by the
`invalidArrayLength` error, and `readInto`'s own validation is never
reached.  Otherwise a zero-filled buffer of `totalSize` elements (`zero`
stands for the element zero of the typed array) is passed to
`readInto`, whose outcome is returned together with the mutated
buffer. -/
def read {α : Type} (pipe : DecodePipeline α) (zero : α) (r : OmFileReader)
    (dataType : Nat) (dimRanges : List OmRange) (ioSizeMax ioSizeMerge : Int) :
    Except ReaderError (List α) × List BackendEvent :=
  match r.omVariable with
  | none => (.error .notInitialized, [])
  | some v =>
    if v.dataType ≠ dataType then
      (.error (.invalidDataType v.dataType dataType), [])
    else
      let totalSize := rangeProduct dimRanges
      if dataType ∈ readSupportedTypes then
        if totalSize < 0 then (.error (.invalidArrayLength totalSize), [])
        else
          let output : List α := List.replicate totalSize.toNat zero
          let oc := readInto pipe r dataType output dimRanges ioSizeMax ioSizeMerge
          match oc.result with
          | .error e => (.error e, oc.trace)
          | .ok _ => (.ok oc.buffer, oc.trace)
      else (.error .unsupportedDataType, [])

/-- Accessor `dataType()`: guard, then `om_variable_get_type`. -/
def dataType (r : OmFileReader) : Except ReaderError Nat :=
  match r.omVariable with
  | none => .error .notInitialized
  | some v => .ok v.dataType

/-- Accessor `compression()`: guard, then `om_variable_get_compression`. -/
def compression (r : OmFileReader) : Except ReaderError Nat :=
  match r.omVariable with
  | none => .error .notInitialized
  | some v => .ok v.compression

/-- Accessor `scaleFactor()`: guard, then `om_variable_get_scale_factor`. -/
def scaleFactor (r : OmFileReader) : Except ReaderError Float :=
  match r.omVariable with
  | none => .error .notInitialized
  | some v => .ok v.scaleFactor

/-- Accessor `addOffset()`: guard, then `om_variable_get_add_offset`. -/
def addOffset (r : OmFileReader) : Except ReaderError Float :=
  match r.omVariable with
  | none => .error .notInitialized
  | some v => .ok v.addOffset

/-- Accessor `getDimensions()`: guard, then the per-index loop over
`om_variable_get_dimension_value`, which yields the dimension list. -/
def getDimensions (r : OmFileReader) : Except ReaderError (List Nat) :=
  match r.omVariable with
  | none => .error .notInitialized
  | some v => .ok v.dimensions

/-- Accessor `getChunkDimensions()`: guard, then the per-index loop over
`om_variable_get_chunk_value`. -/
def getChunkDimensions (r : OmFileReader) : Except ReaderError (List Nat) :=
  match r.omVariable with
  | none => .error .notInitialized
  | some v => .ok v.chunkDimensions

/-- Accessor `getName()`: guard, then `om_variable_get_name`; a
zero-size name is surfaced as `null` (`none`). -/
def getName (r : OmFileReader) : Except ReaderError (Option String) :=
  match r.omVariable with
  | none => .error .notInitialized
  | some v => .ok v.name

/-- Accessor `numberOfChildren()`: guard, then
`om_variable_get_children_count`. -/
def numberOfChildren (r : OmFileReader) : Except ReaderError Nat :=
  match r.omVariable with
  | none => .error .notInitialized
  | some v => .ok v.children.length

/-- Translation of `getChild(index)` (source lines 235-257): guard, then
`om_variable_get_children`.  The wasm lookup is modelled from the spec
(section 4.2): it succeeds exactly when `index < childCount()`.  On
failure the source frees the out-parameters and returns `null` (`none`);
on success it returns the child's `OffsetSize`, from which the source
then builds a child reader via a backend fetch
(`initChildFromOffsetSize`). -/
def getChild (r : OmFileReader) (index : Nat) :
    Except ReaderError (Option OffsetSize) :=
  match r.omVariable with
  | none => .error .notInitialized
  | some v =>
    if h : index < v.children.length then .ok (some (v.children.get ⟨index, h⟩))
    else .ok none

/-- Data-type tags handled by `readScalar`'s value switch; every other
tag hits the `default` branch and produces `null`. -/
def scalarValueOfType (t : Nat) (raw : Int) : Option Int :=
  if t = 1 then some raw
  else if t = 2 then some (raw.emod 256)
  else if t = 3 then some raw
  else if t = 4 then some (raw.emod 65536)
  else if t = 5 then some raw
  else if t = 6 then some (raw.emod 4294967296)
  else if t = 9 then some raw
  else if t = 10 then some raw
  else none

/-- Translation of `readScalar(dataType)` (source lines 277-339): guard,
type-match check returning `null` on mismatch, then
`om_variable_get_scalar`; a non-OK error code or a null data pointer both
return `null`, otherwise the value is read by the type switch (the raw
value is the abstract content at the wasm data pointer; the unsigned
branches apply the source's bit masks). -/
def readScalar (r : OmFileReader) (dataType : Nat) :
    Except ReaderError (Option Int) :=
  match r.omVariable with
  | none => .error .notInitialized
  | some v =>
    if v.dataType ≠ dataType then .ok none
    else
      match v.scalar with
      | none => .ok none
      | some none => .ok none
      | some (some raw) => .ok (scalarValueOfType dataType raw)

/-- Translation of `dispose()` (source lines 700-707): the wasm metadata
buffer is freed and `variable`, `variableData`, `variableDataPtr` are set
to `null`; `offsetSize` is left untouched. -/
def dispose (r : OmFileReader) : OmFileReader :=
  { omVariable := none, offsetSize := r.offsetSize }

/-- Backend capability (`OmFileReaderBackend`): `getBytes(offset, size)`
and `count()`, modelled as pure functions of the requested span. -/
structure Backend where
  totalSize : Nat
  bytes : Int → Int → List Nat

/-- Classification of the fixed-size header returned by
`om_header_type`: one of the three known tags or some other value
(the source's `Unknown header type` branch). -/
inductive HeaderKind where
  | invalid
  | legacy
  | readTrailer
  | unknown (code : Nat)
  deriving Repr, DecidableEq

/-- Modelled from the spec: the wasm format-probing API used by
`initialize()` (spec section 4.1, FormatProbe; wasm `om_header_size`,
`om_header_type`, `om_trailer_size`, `om_trailer_read` and
`om_variable_init` are outside the TypeScript sources).  `trailerRead`
returns the root `(offset, size)` on success and `none` when the
trailer's internal check fails; `variableInit` parses metadata bytes into
a variable. -/
structure WasmFormatApi where
  headerSize : Nat
  trailerSize : Nat
  headerType : List Nat → HeaderKind
  trailerRead : List Nat → Option (Int × Int)
  variableInit : List Nat → Var

/-- Errors thrown by `initialize()`, one per source `throw` site. -/
inductive InitError where
  | notAValidOmFile
  | failedToReadTrailer
  | unknownHeaderType
  deriving Repr, DecidableEq

/-- Translation of `initialize()` (source lines 85-159), returning the
initialized reader (or the thrown error) together with the ordered
backend events.  The header is fetched first; only when it is classified
as trailer-addressed does the source query `backend.count()` and fetch
the trailer at `fileSize - trailerSize`; in legacy mode the header bytes
themselves are the variable metadata and no size query happens. -/
def initReader (w : WasmFormatApi) (b : Backend) :
    Except InitError OmFileReader × List BackendEvent :=
  let headerData := b.bytes 0 (w.headerSize : Int)
  let trace0 := [BackendEvent.getBytes 0 (w.headerSize : Int)]
  match w.headerType headerData with
  | .invalid => (.error .notAValidOmFile, trace0)
  | .legacy =>
    (.ok { omVariable := some (w.variableInit headerData), offsetSize := none },
     trace0)
  | .readTrailer =>
    let fileSize := b.totalSize
    let trailerOffset : Int := (fileSize : Int) - (w.trailerSize : Int)
    let trailerData := b.bytes trailerOffset (w.trailerSize : Int)
    let trace1 := trace0 ++
      [BackendEvent.count, BackendEvent.getBytes trailerOffset (w.trailerSize : Int)]
    match w.trailerRead trailerData with
    | none => (.error .failedToReadTrailer, trace1)
    | some (offset, size) =>
      let variableData := b.bytes offset size
      (.ok { omVariable := some (w.variableInit variableData),
             offsetSize := some ⟨offset, size⟩ },
       trace1 ++ [BackendEvent.getBytes offset size])
  | .unknown _ => (.error .unknownHeaderType, trace0)

/-- Metadata tree as visited by `getFlatVariableMetadata`: each node has
the optional name and optional location that the corresponding reader
would report (`getName()` and the reader's `offsetSize` field; the root
reader of a legacy file has `offsetSize = null`, child readers always
carry the location their parent looked up), plus its child nodes in
table order. -/
inductive VarTree where
  | mk (name : Option String) (loc : Option OffsetSize) (children : List VarTree)

/-- Name component of a tree node. -/
def VarTree.name : VarTree → Option String
  | .mk n _ _ => n

/-- Location component of a tree node. -/
def VarTree.loc : VarTree → Option OffsetSize
  | .mk _ l _ => l

/-- Children of a tree node. -/
def VarTree.children : VarTree → List VarTree
  | .mk _ _ cs => cs

/-- Entry recorded for one node by `collectVariableMetadata`: the
`currentPath/name ↦ offsetSize` record when both the name and the
location are present (the source's
`if (name !== null && this.offsetSize !== null)` guard, with JavaScript
object assignment modelled as appending to an association list), nothing
otherwise. -/
def ownEntry (name : Option String) (loc : Option OffsetSize)
    (path : List String) : List (String × OffsetSize) :=
  match name, loc with
  | some nm, some os => [(String.intercalate "/" (path ++ [nm]), os)]
  | _, _ => []

/-- Path passed to the children: the current path extended by this
node's name when it has one (the source's
`name !== null ? [...currentPath, name] : currentPath`). -/
def childPathOf (name : Option String) (path : List String) : List String :=
  match name with
  | some nm => path ++ [nm]
  | none => path

mutual

/-- Translation of the recursive helper `collectVariableMetadata` (source
lines 679-697): record the node's own entry when it has both a name and
a location, then recurse into every child in order under the extended
path. -/
def collectVariableMetadata : VarTree → List String →
    List (String × OffsetSize) → List (String × OffsetSize)
  | .mk name loc children, currentPath, result =>
    collectChildrenMetadata children (childPathOf name currentPath)
      (result ++ ownEntry name loc currentPath)

/-- Recursion of `collectVariableMetadata` over the child list (the
source's `for` loop over `getChild(i)`). -/
def collectChildrenMetadata : List VarTree → List String →
    List (String × OffsetSize) → List (String × OffsetSize)
  | [], _, result => result
  | c :: cs, path, result =>
    collectChildrenMetadata cs path (collectVariableMetadata c path result)

end

/-- Translation of `getFlatVariableMetadata()` (source lines 672-676):
run the collector from the root with an empty path and empty result. -/
def getFlatVariableMetadata (t : VarTree) : List (String × OffsetSize) :=
  collectVariableMetadata t [] []

mutual

/-- Specification-side depth-first listing of every node of the tree
together with the path of named ancestors above it: the node itself
first, then the listings of its children in order, each under the path
extended by this node's name when it has one. -/
def dfsNodes : VarTree → List String →
    List (List String × Option String × Option OffsetSize)
  | .mk name loc children, path =>
    (path, name, loc) :: dfsNodesF children (childPathOf name path)

/-- Depth-first listing of a forest, left to right. -/
def dfsNodesF : List VarTree → List String →
    List (List String × Option String × Option OffsetSize)
  | [], _ => []
  | c :: cs, path => dfsNodes c path ++ dfsNodesF cs path

end

/-- Specification-side entry for one visited node: a `path/name ↦
location` record exactly when the node has both a name and a location,
nothing otherwise. -/
def recordedEntry :
    List String × Option String × Option OffsetSize →
    Option (String × OffsetSize)
  | (path, some nm, some os) =>
    some (String.intercalate "/" (path ++ [nm]), os)
  | (_, _, none) => none
  | (_, none, _) => none

/-- Buffer-free normal form of `readInto`: the same guard sequence, but
depending on the output buffer only through its element length, and
returning the decoded list (or the error) together with the trace.
`readInto_eq_aux` below shows `readInto` factors through it. -/
def readIntoAux {α : Type} (pipe : DecodePipeline α) (r : OmFileReader)
    (t : Nat) (len : Nat) (rs : List OmRange) (a b : Int) :
    Except ReaderError (List α) × List BackendEvent :=
  match r.omVariable with
  | none => (.error .notInitialized, [])
  | some v =>
    if v.dataType ≠ t then (.error (.invalidDataType v.dataType t), [])
    else if v.dimensions.length ≠ rs.length then
      (.error (.mismatchedDimensions v.dimensions.length rs.length), [])
    else if (len : Int) < rangeProduct rs then
      (.error (.outputTooSmall (rangeProduct rs) len), [])
    else
      match firstInvalidRange rs v.dimensions with
      | some i => (.error (.invalidRange i), [])
      | none =>
        match pipe v (rs.map (·.start)) (rs.map fun rg => rg.stop - rg.start)
            len b a with
        | (.error e, tr) => (.error (.decodeFailed e), tr)
        | (.ok wasmBuf, tr) => (.ok (wasmBuf.take len), tr)

/-- Sample array variable: a float-array (`DATA_TYPE_FLOAT_ARRAY = 20`)
of dimensions `[5, 5]` with chunk shape `[2, 2]`, no name, no children,
no scalar payload. -/
def sampleVar : Var :=
  { dataType := 20
    compression := 0
    scaleFactor := 1.0
    addOffset := 0.0
    dimensions := [5, 5]
    chunkDimensions := [2, 2]
    name := none
    children := []
    scalar := none }

/-- Sample initialized reader over `sampleVar`. -/
def sampleReader : OmFileReader :=
  { omVariable := some sampleVar, offsetSize := none }

/-- Sample scalar variable of type `Float` (tag 9) whose scalar payload
extraction fails (`om_variable_get_scalar` returns a non-OK code). -/
def sampleScalarVar : Var :=
  { dataType := 9
    compression := 4
    scaleFactor := 1.0
    addOffset := 0.0
    dimensions := []
    chunkDimensions := []
    name := none
    children := []
    scalar := none }

/-- Sample initialized reader over `sampleScalarVar`. -/
def sampleScalarReader : OmFileReader :=
  { omVariable := some sampleScalarVar, offsetSize := none }

/-- Sample decode pipeline: decodes every request to a zero buffer of the
output length, issuing no backend events. -/
def idPipe : DecodePipeline Int :=
  fun _ _ _ len _ _ => (.ok (List.replicate len 0), [])

/-- Sample format API classifying every header as legacy. -/
def legacyApi : WasmFormatApi :=
  { headerSize := 40
    trailerSize := 24
    headerType := fun _ => .legacy
    trailerRead := fun _ => none
    variableInit := fun _ => sampleVar }

/-- Sample format API classifying every header as trailer-addressed, with
a trailer pointing at `(offset 8, size 16)`. -/
def trailerApi : WasmFormatApi :=
  { legacyApi with
    headerType := fun _ => .readTrailer
    trailerRead := fun _ => some (8, 16) }

/-- Sample backend: 100 addressable bytes, every fetch returns the empty
byte list (the content is irrelevant to the trace claims). -/
def sampleBackend : Backend :=
  { totalSize := 100, bytes := fun _ _ => [] }

/-- Does a call outcome consist of the range-validation error
(`Invalid range for dimension i`), for some dimension `i`? -/
def isInvalidRangeResult {β : Type} : Except ReaderError β → Bool
  | .error (.invalidRange _) => true
  | _ => false

/-- Folding multiplication over a list containing `0` yields `0`,
whatever the accumulator. -/
theorem foldl_mul_of_mem_zero (l : List Int) (acc : Int) (h : (0 : Int) ∈ l) :
    List.foldl (fun x y => x * y) acc l = 0 := by
  induction l generalizing acc with
  | nil => cases h
  | cons x xs ih =>
    rcases List.mem_cons.mp h with h0 | h0
    · subst h0
      clear h ih
      induction xs generalizing acc with
      | nil => simp
      | cons y ys ih2 => simpa using ih2 (acc * 0 * y)
    · exact ih (acc * x) h0

/-- Extent product of a request containing an extent-zero range. -/
theorem rangeProduct_eq_zero {rs : List OmRange} {rg : OmRange}
    (hmem : rg ∈ rs) (h : rg.stop - rg.start = 0) : rangeProduct rs = 0 := by
  apply foldl_mul_of_mem_zero
  rw [← h]
  exact List.mem_map_of_mem (fun r => r.stop - r.start) hmem

/-- A buffer length, seen as an integer, is never below the `toNat` of
its own value: `new TypedArray(totalSize)` always passes the size
check. -/
theorem not_toNat_lt (a : Int) : ¬ ((a.toNat : Int) < a) :=
  Int.not_lt.mpr (Int.self_le_toNat a)

/-- When every zipped (range, extent) pair passes validation, the
in-order scan finds no invalid dimension. -/
theorem firstInvalidRange_eq_none {rs : List OmRange} {ds : List Nat}
    (h : ∀ p ∈ rs.zip ds, rangeInvalid p.1 p.2 = false) :
    firstInvalidRange rs ds = none := by
  induction rs generalizing ds with
  | nil => simp [firstInvalidRange]
  | cons rg rs ih =>
    cases ds with
    | nil => simp [firstInvalidRange]
    | cons d ds =>
      have hhead : rangeInvalid rg d = false := h (rg, d) (by simp)
      rw [firstInvalidRange, hhead]
      simp only [Bool.false_eq_true, if_false]
      rw [ih fun p hp => h p (by simp [hp])]
      rfl

/-- Conversely, a scan reporting no invalid dimension means every zipped
(range, extent) pair passes validation. -/
theorem all_valid_of_firstInvalidRange_eq_none {rs : List OmRange}
    {ds : List Nat} (h : firstInvalidRange rs ds = none) :
    ∀ p ∈ rs.zip ds, rangeInvalid p.1 p.2 = false := by
  induction rs generalizing ds with
  | nil => intro p hp; simp at hp
  | cons rg0 rs ih =>
    cases ds with
    | nil => intro p hp; simp at hp
    | cons d0 ds =>
      rw [firstInvalidRange] at h
      by_cases hh : rangeInvalid rg0 d0 = true
      · rw [hh] at h; simp at h
      · rw [Bool.not_eq_true] at hh
        rw [hh] at h
        simp only [Bool.false_eq_true, if_false, Option.map_eq_none'] at h
        intro p hp
        rcases List.mem_cons.mp hp with h0 | h0
        · subst h0; exact hh
        · exact ih h p h0

/-- When some zipped (range, extent) pair fails validation, the in-order
scan reports an invalid dimension. -/
theorem firstInvalidRange_isSome {rs : List OmRange} {ds : List Nat}
    {p : OmRange × Nat} (hmem : p ∈ rs.zip ds)
    (h : rangeInvalid p.1 p.2 = true) :
    ∃ j, firstInvalidRange rs ds = some j := by
  cases hfi : firstInvalidRange rs ds with
  | some j => exact ⟨j, rfl⟩
  | none =>
    have := all_valid_of_firstInvalidRange_eq_none hfi p hmem
    rw [h] at this
    cases this

/-- Factorization of `readInto` through its buffer-free normal form: the
outcome depends on the caller's buffer only through its length, the
buffer is unchanged on every error and replaced by the decoded list on
success. -/
theorem readInto_eq_aux {α : Type} (pipe : DecodePipeline α)
    (r : OmFileReader) (t : Nat) (out : List α) (rs : List OmRange)
    (a b : Int) :
    readInto pipe r t out rs a b =
      { result := (readIntoAux pipe r t out.length rs a b).1.map fun _ => ()
        buffer :=
          match (readIntoAux pipe r t out.length rs a b).1 with
          | .ok l => l
          | .error _ => out
        trace := (readIntoAux pipe r t out.length rs a b).2 } := by
  unfold readInto readIntoAux
  cases r.omVariable with
  | none => rfl
  | some v =>
    by_cases h1 : v.dataType ≠ t
    · simp [h1, Except.map]
    · simp only [h1, if_false, ite_false, if_neg h1]
      by_cases h2 : v.dimensions.length ≠ rs.length
      · simp [h2, Except.map]
      · simp only [h2, if_neg h2]
        by_cases h3 : (out.length : Int) < rangeProduct rs
        · simp [h3, Except.map]
        · simp only [h3, if_neg h3]
          cases h4 : firstInvalidRange rs v.dimensions with
          | some i => simp [Except.map]
          | none =>
            cases h5 : pipe v (rs.map (·.start))
                (rs.map fun rg => rg.stop - rg.start) out.length b a with
            | mk res tr =>
              cases res with
              | error e => simp [Except.map]
              | ok wasmBuf => simp [Except.map]

/-- For a supported array data type and a nonnegative extent product
(so the typed-array allocation succeeds), `read` is exactly the
buffer-free normal form at the freshly allocated buffer's length: the
allocation of `new TypedArray(totalSize)` and the final return of the
mutated buffer add nothing beyond `readInto`'s behaviour. -/
theorem read_eq_aux {α : Type} (pipe : DecodePipeline α) (zero : α)
    (r : OmFileReader) (t : Nat) (rs : List OmRange) (a b : Int)
    (hs : t ∈ readSupportedTypes) (hnn : 0 ≤ rangeProduct rs) :
    read pipe zero r t rs a b =
      readIntoAux pipe r t (rangeProduct rs).toNat rs a b := by
  unfold read
  cases hv : r.omVariable with
  | none => simp [readIntoAux, hv]
  | some v =>
    by_cases h1 : v.dataType ≠ t
    · simp [readIntoAux, hv, h1]
    · simp only [h1, if_neg h1, if_pos hs, if_neg (not_lt.mpr hnn)]
      rw [readInto_eq_aux]
      simp only [List.length_replicate]
      conv_rhs => rw [show readIntoAux pipe r t (rangeProduct rs).toNat rs a b =
        ((readIntoAux pipe r t (rangeProduct rs).toNat rs a b).1,
         (readIntoAux pipe r t (rangeProduct rs).toNat rs a b).2) from rfl]
      cases hres : (readIntoAux pipe r t (rangeProduct rs).toNat rs a b).1 with
      | error e => simp [Except.map]
      | ok l => simp [Except.map]

/-- Evaluation of the normal form when the variable is present, the type
matches, the rank matches, the buffer fits and the ranges are valid. -/
theorem readIntoAux_pipe {α : Type} (pipe : DecodePipeline α)
    (r : OmFileReader) (v : Var) (t : Nat) (len : Nat) (rs : List OmRange)
    (a b : Int) (hv : r.omVariable = some v) (ht : v.dataType = t)
    (hlen : rs.length = v.dimensions.length)
    (hfit : ¬ ((len : Int) < rangeProduct rs))
    (hvalid : firstInvalidRange rs v.dimensions = none) :
    readIntoAux pipe r t len rs a b =
      match pipe v (rs.map (·.start)) (rs.map fun rg => rg.stop - rg.start)
          len b a with
      | (.error e, tr) => (.error (.decodeFailed e), tr)
      | (.ok wasmBuf, tr) => (.ok (wasmBuf.take len), tr) := by
  unfold readIntoAux
  simp only [hv]
  rw [if_neg (by omega), if_neg (by omega), if_neg hfit, hvalid]

/-- Evaluation of the normal form in the invalid-range branch. -/
theorem readIntoAux_invalidRange {α : Type} (pipe : DecodePipeline α)
    (r : OmFileReader) (v : Var) (t : Nat) (len : Nat) (rs : List OmRange)
    (a b : Int) (j : Nat) (hv : r.omVariable = some v) (ht : v.dataType = t)
    (hlen : rs.length = v.dimensions.length)
    (hfit : ¬ ((len : Int) < rangeProduct rs))
    (hbad : firstInvalidRange rs v.dimensions = some j) :
    readIntoAux pipe r t len rs a b = (.error (.invalidRange j), []) := by
  unfold readIntoAux
  simp only [hv]
  rw [if_neg (by omega), if_neg (by omega), if_neg hfit, hbad]

/-- C1 counterexample: on an initialized reader over a `[5, 5]` float
array, the request `[0:0, 0:2]` — every range inside the file's
dimensions, the first with `start == end` — does not succeed with a
zero-element output: both `readInto` (given a 10-element buffer) and
`read` throw the range-validation error for dimension 0, because the
validation `start < 0 || end > fileDims[i] || start >= end` rejects
`start == end`. -/
theorem claim_C1_counterexample :
    (readInto idPipe sampleReader 20 (List.replicate 10 (0 : Int))
        [⟨0, 0⟩, ⟨0, 2⟩] 65536 512).result =
      .error (.invalidRange 0) ∧
    (read idPipe 0 sampleReader 20 [⟨0, 0⟩, ⟨0, 2⟩] 65536 512).1 =
      .error (.invalidRange 0) := by
  exact ⟨rfl, rfl⟩

/-- C1 (amended): a request in which some dimension's Range has
`start == end` fails `read`/`readInto`'s per-dimension validation
(`start >= end`) with the range error, rather than succeeding with a
zero-element buffer.  (The extent product of such a request is `0`, so
the output-size check always passes and the range validation is always
reached.) -/
theorem claim_C1 {α : Type} :
    (∀ (pipe : DecodePipeline α) (r : OmFileReader) (v : Var) (t : Nat)
        (out : List α) (rs : List OmRange) (a b : Int),
        r.omVariable = some v → v.dataType = t →
        rs.length = v.dimensions.length →
        (∃ p ∈ rs.zip v.dimensions, p.1.start = p.1.stop) →
        isInvalidRangeResult (readInto pipe r t out rs a b).result = true) ∧
    (∀ (pipe : DecodePipeline α) (zero : α) (r : OmFileReader) (v : Var)
        (t : Nat) (rs : List OmRange) (a b : Int),
        r.omVariable = some v → v.dataType = t → t ∈ readSupportedTypes →
        rs.length = v.dimensions.length →
        (∃ p ∈ rs.zip v.dimensions, p.1.start = p.1.stop) →
        isInvalidRangeResult (read pipe zero r t rs a b).1 = true) := by
  have core : ∀ (rs : List OmRange) (v : Var) (len : Nat)
      (pipe : DecodePipeline α) (r : OmFileReader) (t : Nat) (a b : Int),
      r.omVariable = some v → v.dataType = t →
      rs.length = v.dimensions.length →
      (∃ p ∈ rs.zip v.dimensions, p.1.start = p.1.stop) →
      ∃ j, readIntoAux pipe r t len rs a b = (.error (.invalidRange j), []) := by
    intro rs v len pipe r t a b hv ht hlen hempty
    obtain ⟨p, hpmem, hpeq⟩ := hempty
    have hzero : rangeProduct rs = 0 :=
      rangeProduct_eq_zero (List.of_mem_zip hpmem).1
        (by rw [← hpeq, Int.sub_self])
    have hfit : ¬ ((len : Int) < rangeProduct rs) := by
      rw [hzero]
      exact Int.not_lt.mpr (Int.natCast_nonneg len)
    have hinv : rangeInvalid p.1 p.2 = true := by
      simp [rangeInvalid, hpeq, le_refl]
    obtain ⟨j, hj⟩ := firstInvalidRange_isSome hpmem hinv
    exact ⟨j, readIntoAux_invalidRange pipe r v t len rs a b j hv ht hlen hfit hj⟩
  constructor
  · intro pipe r v t out rs a b hv ht hlen hempty
    obtain ⟨j, hj⟩ := core rs v out.length pipe r t a b hv ht hlen hempty
    rw [readInto_eq_aux, hj]
    rfl
  · intro pipe zero r v t rs a b hv ht hs hlen hempty
    obtain ⟨j, hj⟩ := core rs v (rangeProduct rs).toNat pipe r t a b hv ht hlen hempty
    have hzero : rangeProduct rs = 0 := by
      obtain ⟨p, hpmem, hpeq⟩ := hempty
      exact rangeProduct_eq_zero (List.of_mem_zip hpmem).1
        (by rw [← hpeq, Int.sub_self])
    rw [read_eq_aux pipe zero r t rs a b hs (le_of_eq hzero.symm), hj]
    rfl

/-- C1 witness: the amended statement at the counterexample's input. -/
theorem claim_C1_witness :
    isInvalidRangeResult
      (readInto idPipe sampleReader 20 (List.replicate 10 (0 : Int))
        [⟨0, 0⟩, ⟨0, 2⟩] 65536 512).result = true ∧
    isInvalidRangeResult
      (read idPipe 0 sampleReader 20 [⟨0, 0⟩, ⟨0, 2⟩] 65536 512).1 = true := by
  constructor
  · exact claim_C1.1 idPipe sampleReader sampleVar 20
      (List.replicate 10 (0 : Int)) [⟨0, 0⟩, ⟨0, 2⟩] 65536 512 rfl rfl (by decide)
      ⟨(⟨0, 0⟩, 5), by decide, rfl⟩
  · exact claim_C1.2 idPipe 0 sampleReader sampleVar 20
      [⟨0, 0⟩, ⟨0, 2⟩] 65536 512 rfl rfl (by decide) (by decide)
      ⟨(⟨0, 0⟩, 5), by decide, rfl⟩

/-- C2 counterexample: on an initialized reader whose variable has zero
children, `getChild 0` (an index `≥ childCount()`) does not fail with an
`IndexOutOfRange` error: it succeeds and returns `null` (`none`),
because the source frees the out-parameters and `return null`s when the
wasm child lookup reports failure. -/
theorem claim_C2_counterexample :
    numberOfChildren sampleReader = .ok 0 ∧
    getChild sampleReader 0 = .ok none := by
  exact ⟨rfl, rfl⟩

/-- C2 (amended): for an initialized reader and `index >= childCount()`,
`getChild` succeeds and returns `null` (no child), rather than failing
with `IndexOutOfRange`.  (The wasm lookup `om_variable_get_children` is
modelled from the spec as succeeding exactly when the index is in
range.) -/
theorem claim_C2 (r : OmFileReader) (v : Var) (i : Nat)
    (hv : r.omVariable = some v) (hi : v.children.length ≤ i) :
    getChild r i = .ok none := by
  unfold getChild
  simp only [hv]
  rw [dif_neg (by omega)]

/-- C2 witness: the amended statement on the zero-child sample reader. -/
theorem claim_C2_witness : getChild sampleReader 3 = .ok none :=
  claim_C2 sampleReader sampleVar 3 rfl (by decide)

/-- C3 counterexample: on an initialized reader over a `Float` scalar
variable whose embedded payload extraction fails
(`om_variable_get_scalar` reports a non-OK error code), `readScalar`
with the matching expected type does not fail with a `DecodeError`: it
succeeds and returns `null` (`none`), because the source `return null`s
on a non-OK scalar error code. -/
theorem claim_C3_counterexample :
    readScalar sampleScalarReader 9 = .ok none := by
  exact rfl

/-- C3 (amended): on an initialized reader, `readScalar(expectedType)`
returns `null` when the variable's actual type differs from
`expectedType`; when the scalar payload is malformed (the wasm scalar
extraction fails) it also returns `null` rather than failing with a
`DecodeError`; in fact once the reader is initialized `readScalar` never
fails. -/
theorem claim_C3 :
    (∀ (r : OmFileReader) (v : Var) (t : Nat),
        r.omVariable = some v → v.dataType ≠ t →
        readScalar r t = .ok none) ∧
    (∀ (r : OmFileReader) (v : Var) (t : Nat),
        r.omVariable = some v → v.dataType = t → v.scalar = none →
        readScalar r t = .ok none) ∧
    (∀ (r : OmFileReader) (v : Var) (t : Nat) (e : ReaderError),
        r.omVariable = some v → readScalar r t ≠ .error e) := by
  refine ⟨?_, ?_, ?_⟩
  · intro r v t hv hne
    unfold readScalar
    simp only [hv]
    rw [if_pos hne]
  · intro r v t hv ht hsc
    unfold readScalar
    simp only [hv, hsc]
    rw [if_neg (by omega)]
  · intro r v t e hv
    unfold readScalar
    simp only [hv]
    by_cases hne : v.dataType ≠ t
    · rw [if_pos hne]; intro hc; cases hc
    · rw [if_neg hne]
      cases v.scalar with
      | none => intro hc; cases hc
      | some o =>
        cases o with
        | none => intro hc; cases hc
        | some raw => intro hc; cases hc

/-- C3 witness: the amended statement on the failing-scalar sample
reader (mismatching type `10`, matching type `9`, and no thrown
error). -/
theorem claim_C3_witness :
    readScalar sampleScalarReader 10 = .ok none ∧
    readScalar sampleScalarReader 9 = .ok none ∧
    readScalar sampleScalarReader 9 ≠ .error .notInitialized := by
  refine ⟨?_, ?_, ?_⟩
  · exact claim_C3.1 sampleScalarReader sampleScalarVar 10 rfl (by decide)
  · exact claim_C3.2.1 sampleScalarReader sampleScalarVar 9 rfl rfl rfl
  · exact claim_C3.2.2 sampleScalarReader sampleScalarVar 9 .notInitialized rfl

/-- C4: every accessor of the facade (`dataType`, `compression`,
`scaleFactor`, `addOffset`, `getDimensions`, `getChunkDimensions`,
`getName`, `numberOfChildren`, `getChild`, `readScalar`, `read`,
`readInto`) fails with the `Reader not initialized` error whenever the
`variable` handle is `null`, which is its state both in a freshly
constructed reader (before `initialize()` completes) and at any time
after `dispose()`. -/
theorem claim_C4 (r : OmFileReader) (h : r.omVariable = none) :
    dataType r = .error .notInitialized ∧
    compression r = .error .notInitialized ∧
    scaleFactor r = .error .notInitialized ∧
    addOffset r = .error .notInitialized ∧
    getDimensions r = .error .notInitialized ∧
    getChunkDimensions r = .error .notInitialized ∧
    getName r = .error .notInitialized ∧
    numberOfChildren r = .error .notInitialized ∧
    (∀ i, getChild r i = .error .notInitialized) ∧
    (∀ t, readScalar r t = .error .notInitialized) ∧
    (∀ (α : Type) (pipe : DecodePipeline α) (zero : α) (t : Nat)
        (rs : List OmRange) (a b : Int),
        read pipe zero r t rs a b = (.error .notInitialized, [])) ∧
    (∀ (α : Type) (pipe : DecodePipeline α) (t : Nat) (out : List α)
        (rs : List OmRange) (a b : Int),
        readInto pipe r t out rs a b = ⟨.error .notInitialized, out, []⟩) ∧
    newOmFileReader.omVariable = none ∧
    (∀ r', (dispose r').omVariable = none) := by
  refine ⟨?_, ?_, ?_, ?_, ?_, ?_, ?_, ?_, ?_, ?_, ?_, ?_, rfl, fun r' => rfl⟩
  · unfold dataType; rw [h]
  · unfold compression; rw [h]
  · unfold scaleFactor; rw [h]
  · unfold addOffset; rw [h]
  · unfold getDimensions; rw [h]
  · unfold getChunkDimensions; rw [h]
  · unfold getName; rw [h]
  · unfold numberOfChildren; rw [h]
  · intro i; unfold getChild; rw [h]
  · intro t; unfold readScalar; rw [h]
  · intro α pipe zero t rs a b; unfold read; rw [h]
  · intro α pipe t out rs a b; unfold readInto; rw [h]

/-- C4 witness: the un-initialized accessors on the constructor state
and the disposed sample reader. -/
theorem claim_C4_witness :
    dataType newOmFileReader = .error .notInitialized ∧
    getChild newOmFileReader 0 = .error .notInitialized ∧
    (read idPipe (0 : Int) newOmFileReader 20 [] 65536 512) =
      (.error .notInitialized, []) ∧
    readScalar (dispose sampleReader) 9 = .error .notInitialized := by
  obtain ⟨h1, _, _, _, _, _, _, _, h9, _, h11, _, _, _⟩ :=
    claim_C4 newOmFileReader rfl
  obtain ⟨_, _, _, _, _, _, _, _, _, h10, _, _, _, _⟩ :=
    claim_C4 (dispose sampleReader) rfl
  exact ⟨h1, h9 0, h11 Int idPipe 0 20 [] 65536 512, h10 9⟩

/-- C5 counterexample: on the initialized `[5, 5]` sample reader with
matching data type, the claimed errors are not what `read` raises when
the request's extent product is negative, because
`new TypedArray(totalSize)` throws its own `RangeError` (modelled as
`invalidArrayLength`) before `readInto`'s validation runs: the rank-1
request `[0:-5]` (wrong rank, product `-5`) does not fail with
`DimensionMismatch`, and the rank-2 request `[5:0, 0:1]` (inverted first
Range, product `-5`) does not fail with `RangeOutOfBounds`. -/
theorem claim_C5_counterexample :
    (read idPipe 0 sampleReader 20 [⟨0, -5⟩] 65536 512).1 =
      .error (.invalidArrayLength (-5)) ∧
    (read idPipe 0 sampleReader 20 [⟨5, 0⟩, ⟨0, 1⟩] 65536 512).1 =
      .error (.invalidArrayLength (-5)) ∧
    isInvalidRangeResult
      (read idPipe 0 sampleReader 20 [⟨5, 0⟩, ⟨0, 1⟩] 65536 512).1 = false := by
  exact ⟨rfl, rfl, rfl⟩

/-- C5 (amended): on an initialized reader whose variable's data type
matches the request, a `readInto` request with wrong rank
(`ranges.length != dimensions.length`) fails with the rank-mismatch
error, and a `readInto` request with correct rank and a large-enough
buffer in which some Range has `end > dimensionExtent` or is inverted
(`end < start`) fails with the range-validation error; `read` fails the
same way provided the request's extent product is nonnegative — when
the product is negative (an odd number of inverted extents), `read`
instead fails at the typed-array allocation itself (`RangeError`,
modelled as `invalidArrayLength`) before any validation. -/
theorem claim_C5 {α : Type} :
    (∀ (pipe : DecodePipeline α) (r : OmFileReader) (v : Var) (t : Nat)
        (out : List α) (rs : List OmRange) (a b : Int),
        r.omVariable = some v → v.dataType = t →
        rs.length ≠ v.dimensions.length →
        (readInto pipe r t out rs a b).result =
          .error (.mismatchedDimensions v.dimensions.length rs.length)) ∧
    (∀ (pipe : DecodePipeline α) (zero : α) (r : OmFileReader) (v : Var)
        (t : Nat) (rs : List OmRange) (a b : Int),
        r.omVariable = some v → v.dataType = t → t ∈ readSupportedTypes →
        0 ≤ rangeProduct rs →
        rs.length ≠ v.dimensions.length →
        (read pipe zero r t rs a b).1 =
          .error (.mismatchedDimensions v.dimensions.length rs.length)) ∧
    (∀ (pipe : DecodePipeline α) (r : OmFileReader) (v : Var) (t : Nat)
        (out : List α) (rs : List OmRange) (a b : Int),
        r.omVariable = some v → v.dataType = t →
        rs.length = v.dimensions.length →
        ¬ ((out.length : Int) < rangeProduct rs) →
        (∃ p ∈ rs.zip v.dimensions, (p.2 : Int) < p.1.stop ∨ p.1.stop < p.1.start) →
        isInvalidRangeResult (readInto pipe r t out rs a b).result = true) ∧
    (∀ (pipe : DecodePipeline α) (zero : α) (r : OmFileReader) (v : Var)
        (t : Nat) (rs : List OmRange) (a b : Int),
        r.omVariable = some v → v.dataType = t → t ∈ readSupportedTypes →
        0 ≤ rangeProduct rs →
        rs.length = v.dimensions.length →
        (∃ p ∈ rs.zip v.dimensions, (p.2 : Int) < p.1.stop ∨ p.1.stop < p.1.start) →
        isInvalidRangeResult (read pipe zero r t rs a b).1 = true) := by
  have rank : ∀ (pipe : DecodePipeline α) (r : OmFileReader) (v : Var)
      (t : Nat) (len : Nat) (rs : List OmRange) (a b : Int),
      r.omVariable = some v → v.dataType = t →
      rs.length ≠ v.dimensions.length →
      readIntoAux pipe r t len rs a b =
        (.error (.mismatchedDimensions v.dimensions.length rs.length), []) := by
    intro pipe r v t len rs a b hv ht hne
    unfold readIntoAux
    simp only [hv]
    rw [if_neg (by omega), if_pos (by omega)]
  have ranges : ∀ (pipe : DecodePipeline α) (r : OmFileReader) (v : Var)
      (t : Nat) (len : Nat) (rs : List OmRange) (a b : Int),
      r.omVariable = some v → v.dataType = t →
      rs.length = v.dimensions.length →
      ¬ ((len : Int) < rangeProduct rs) →
      (∃ p ∈ rs.zip v.dimensions, (p.2 : Int) < p.1.stop ∨ p.1.stop < p.1.start) →
      ∃ j, readIntoAux pipe r t len rs a b = (.error (.invalidRange j), []) := by
    intro pipe r v t len rs a b hv ht hlen hfit hbad
    obtain ⟨p, hpmem, hpbad⟩ := hbad
    have hinv : rangeInvalid p.1 p.2 = true := by
      rcases hpbad with hb | hb
      · simp [rangeInvalid, hb]
      · have : p.1.start ≥ p.1.stop := le_of_lt hb
        simp [rangeInvalid, this]
    obtain ⟨j, hj⟩ := firstInvalidRange_isSome hpmem hinv
    exact ⟨j, readIntoAux_invalidRange pipe r v t len rs a b j hv ht hlen hfit hj⟩
  refine ⟨?_, ?_, ?_, ?_⟩
  · intro pipe r v t out rs a b hv ht hne
    rw [readInto_eq_aux, rank pipe r v t out.length rs a b hv ht hne]
    rfl
  · intro pipe zero r v t rs a b hv ht hs hnn hne
    rw [read_eq_aux pipe zero r t rs a b hs hnn,
      rank pipe r v t (rangeProduct rs).toNat rs a b hv ht hne]
  · intro pipe r v t out rs a b hv ht hlen hfit hbad
    obtain ⟨j, hj⟩ :=
      ranges pipe r v t out.length rs a b hv ht hlen hfit hbad
    rw [readInto_eq_aux, hj]
    rfl
  · intro pipe zero r v t rs a b hv ht hs hnn hlen hbad
    obtain ⟨j, hj⟩ :=
      ranges pipe r v t (rangeProduct rs).toNat rs a b hv ht hlen
        (not_toNat_lt (rangeProduct rs)) hbad
    rw [read_eq_aux pipe zero r t rs a b hs hnn, hj]
    rfl

/-- C5 witness: the four parts at concrete inputs — a rank-1 request on
the `[5, 5]` sample variable, and an in-rank request whose first Range
has `end = 6 > 5`. -/
theorem claim_C5_witness :
    (readInto idPipe sampleReader 20 ([] : List Int) [⟨0, 1⟩] 65536 512).result =
      .error (.mismatchedDimensions 2 1) ∧
    (read idPipe 0 sampleReader 20 [⟨0, 1⟩] 65536 512).1 =
      .error (.mismatchedDimensions 2 1) ∧
    isInvalidRangeResult
      (readInto idPipe sampleReader 20 (List.replicate 6 (0 : Int))
        [⟨0, 6⟩, ⟨0, 1⟩] 65536 512).result = true ∧
    isInvalidRangeResult
      (read idPipe 0 sampleReader 20 [⟨0, 6⟩, ⟨0, 1⟩] 65536 512).1 = true := by
  refine ⟨?_, ?_, ?_, ?_⟩
  · exact claim_C5.1 idPipe sampleReader sampleVar 20 [] [⟨0, 1⟩] 65536 512
      rfl rfl (by decide)
  · exact claim_C5.2.1 idPipe 0 sampleReader sampleVar 20 [⟨0, 1⟩] 65536 512
      rfl rfl (by decide) (by decide) (by decide)
  · exact claim_C5.2.2.1 idPipe sampleReader sampleVar 20
      (List.replicate 6 (0 : Int)) [⟨0, 6⟩, ⟨0, 1⟩] 65536 512 rfl rfl
      (by decide) (by decide) ⟨(⟨0, 6⟩, 5), by decide, Or.inl (by decide)⟩
  · exact claim_C5.2.2.2 idPipe 0 sampleReader sampleVar 20
      [⟨0, 6⟩, ⟨0, 1⟩] 65536 512 rfl rfl (by decide) (by decide) (by decide)
      ⟨(⟨0, 6⟩, 5), by decide, Or.inl (by decide)⟩

/-- C6: on an initialized reader and a request that is otherwise valid
(matching type, matching rank, every Range passing validation),
`readInto` fails with the `Output array is too small` error exactly when
the caller's buffer holds fewer elements than the product of the
request's range extents, and never fails with that error otherwise. -/
theorem claim_C6 {α : Type} (pipe : DecodePipeline α) (r : OmFileReader)
    (v : Var) (t : Nat) (out : List α) (rs : List OmRange) (a b : Int)
    (hv : r.omVariable = some v) (ht : v.dataType = t)
    (hlen : rs.length = v.dimensions.length)
    (hvalid : ∀ p ∈ rs.zip v.dimensions, rangeInvalid p.1 p.2 = false) :
    ((readInto pipe r t out rs a b).result =
        .error (.outputTooSmall (rangeProduct rs) out.length) ↔
      (out.length : Int) < rangeProduct rs) ∧
    (∀ (n : Int) (m : Nat), ¬ ((out.length : Int) < rangeProduct rs) →
      (readInto pipe r t out rs a b).result ≠ .error (.outputTooSmall n m)) := by
  have small : (out.length : Int) < rangeProduct rs →
      (readInto pipe r t out rs a b).result =
        .error (.outputTooSmall (rangeProduct rs) out.length) := by
    intro hlt
    rw [readInto_eq_aux]
    have : readIntoAux pipe r t out.length rs a b =
        (.error (.outputTooSmall (rangeProduct rs) out.length), []) := by
      unfold readIntoAux
      simp only [hv]
      rw [if_neg (by omega), if_neg (by omega), if_pos hlt]
    rw [this]
    rfl
  have big : ¬ ((out.length : Int) < rangeProduct rs) →
      ∀ (n : Int) (m : Nat),
        (readInto pipe r t out rs a b).result ≠ .error (.outputTooSmall n m) := by
    intro hge n m
    rw [readInto_eq_aux,
      readIntoAux_pipe pipe r v t out.length rs a b hv ht hlen hge
        (firstInvalidRange_eq_none hvalid)]
    cases hp : pipe v (rs.map (·.start)) (rs.map fun rg => rg.stop - rg.start)
        out.length b a with
    | mk res tr =>
      cases res with
      | error e => intro hc; cases hc
      | ok wasmBuf => intro hc; cases hc
  constructor
  · constructor
    · intro heq
      by_contra hge
      exact big hge (rangeProduct rs) out.length heq
    · exact small
  · intro n m hge
    exact big hge n m

/-- C6 witness: a 4-element request (`[0:2, 0:2]` on the `[5, 5]`
sample) with a 3-element buffer fails with the too-small error; with a
4-element buffer it does not fail with that error. -/
theorem claim_C6_witness :
    (readInto idPipe sampleReader 20 (List.replicate 3 (0 : Int))
        [⟨0, 2⟩, ⟨0, 2⟩] 65536 512).result =
      .error (.outputTooSmall 4 3) ∧
    (readInto idPipe sampleReader 20 (List.replicate 4 (0 : Int))
        [⟨0, 2⟩, ⟨0, 2⟩] 65536 512).result ≠
      .error (.outputTooSmall 4 4) := by
  constructor
  · exact (claim_C6 idPipe sampleReader sampleVar 20
      (List.replicate 3 (0 : Int)) [⟨0, 2⟩, ⟨0, 2⟩] 65536 512 rfl rfl
      (by decide) (by decide)).1.mpr (by decide)
  · exact (claim_C6 idPipe sampleReader sampleVar 20
      (List.replicate 4 (0 : Int)) [⟨0, 2⟩, ⟨0, 2⟩] 65536 512 rfl rfl
      (by decide) (by decide)).2 4 4 (by decide)

/-- C7: for a supported array data type and a caller buffer sized
exactly to the product of the range extents, `read` returns precisely
the outcome of `readInto` on that buffer: the same error when the call
fails, the same backend events, and on success exactly the element
values `readInto` writes into the caller's buffer. -/
theorem claim_C7 {α : Type} (pipe : DecodePipeline α) (zero : α)
    (r : OmFileReader) (t : Nat) (out : List α) (rs : List OmRange)
    (a b : Int) (hs : t ∈ readSupportedTypes)
    (hout : (out.length : Int) = rangeProduct rs) :
    read pipe zero r t rs a b =
      ((readInto pipe r t out rs a b).result.map
          fun _ => (readInto pipe r t out rs a b).buffer,
        (readInto pipe r t out rs a b).trace) := by
  have hlen : (rangeProduct rs).toNat = out.length := by omega
  rw [read_eq_aux pipe zero r t rs a b hs (by omega), readInto_eq_aux, hlen]
  cases hres : readIntoAux pipe r t out.length rs a b with
  | mk res tr =>
    cases res with
    | error e => simp [Except.map]
    | ok l => simp [Except.map]

/-- C7 witness: the equivalence at the `[0:2, 0:2]` request over the
sample reader with a 4-element caller buffer. -/
theorem claim_C7_witness :
    read idPipe 0 sampleReader 20 [⟨0, 2⟩, ⟨0, 2⟩] 65536 512 =
      ((readInto idPipe sampleReader 20 (List.replicate 4 (0 : Int))
          [⟨0, 2⟩, ⟨0, 2⟩] 65536 512).result.map
        fun _ => (readInto idPipe sampleReader 20 (List.replicate 4 (0 : Int))
          [⟨0, 2⟩, ⟨0, 2⟩] 65536 512).buffer,
       (readInto idPipe sampleReader 20 (List.replicate 4 (0 : Int))
          [⟨0, 2⟩, ⟨0, 2⟩] 65536 512).trace) :=
  claim_C7 idPipe 0 sampleReader 20 (List.replicate 4 (0 : Int))
    [⟨0, 2⟩, ⟨0, 2⟩] 65536 512 (by decide) (by decide)

/-- C8: during `initialize()`, the backend's total size is queried only
when the header has been classified as trailer-addressed — for a header
classified any other way (legacy, invalid, unknown) the event trace
contains no `count` query at all — and in trailer-addressed mode the
trace starts with the header fetch, then the size query, then the
trailer fetch at absolute offset `totalSize() - trailerSize`. -/
theorem claim_C8 :
    (∀ (w : WasmFormatApi) (b : Backend),
        w.headerType (b.bytes 0 (w.headerSize : Int)) ≠ HeaderKind.readTrailer →
        BackendEvent.count ∉ (initReader w b).2) ∧
    (∀ (w : WasmFormatApi) (b : Backend),
        w.headerType (b.bytes 0 (w.headerSize : Int)) = HeaderKind.readTrailer →
        (initReader w b).2.take 3 =
          [BackendEvent.getBytes 0 (w.headerSize : Int),
           BackendEvent.count,
           BackendEvent.getBytes ((b.totalSize : Int) - (w.trailerSize : Int))
             (w.trailerSize : Int)]) := by
  constructor
  · intro w b h
    simp only [initReader]
    cases hk : w.headerType (b.bytes 0 (w.headerSize : Int)) with
    | invalid => simp [hk]
    | legacy => simp [hk]
    | readTrailer => exact absurd hk h
    | unknown code => simp [hk]
  · intro w b h
    simp only [initReader, h]
    cases ht : w.trailerRead
        (b.bytes ((b.totalSize : Int) - (w.trailerSize : Int)) (w.trailerSize : Int)) with
    | none => simp [ht]
    | some p =>
      cases p with
      | mk offset size => simp [ht]

/-- C8 witness: the no-size-query part on a legacy-classifying API and
the trace-prefix part on a trailer-classifying API over the 100-byte
sample backend. -/
theorem claim_C8_witness :
    BackendEvent.count ∉ (initReader legacyApi sampleBackend).2 ∧
    (initReader trailerApi sampleBackend).2.take 3 =
      [BackendEvent.getBytes 0 40, BackendEvent.count,
       BackendEvent.getBytes 76 24] := by
  constructor
  · exact claim_C8.1 legacyApi sampleBackend (by decide)
  · have := claim_C8.2 trailerApi sampleBackend rfl
    simpa using this

/-- C10: on an initialized reader, both `read` and `readInto` fail with
the data-type mismatch error as their very first check whenever the
requested data type differs from the variable's actual data type: no
backend event is issued (the trace is empty) and the caller's buffer is
returned untouched. -/
theorem claim_C10 {α : Type} :
    (∀ (pipe : DecodePipeline α) (r : OmFileReader) (v : Var) (t : Nat)
        (out : List α) (rs : List OmRange) (a b : Int),
        r.omVariable = some v → v.dataType ≠ t →
        readInto pipe r t out rs a b =
          ⟨.error (.invalidDataType v.dataType t), out, []⟩) ∧
    (∀ (pipe : DecodePipeline α) (zero : α) (r : OmFileReader) (v : Var)
        (t : Nat) (rs : List OmRange) (a b : Int),
        r.omVariable = some v → v.dataType ≠ t →
        read pipe zero r t rs a b =
          (.error (.invalidDataType v.dataType t), [])) := by
  constructor
  · intro pipe r v t out rs a b hv hne
    unfold readInto
    simp only [hv]
    rw [if_pos hne]
  · intro pipe zero r v t rs a b hv hne
    unfold read
    simp only [hv]
    rw [if_pos hne]

/-- C10 witness: requesting type 12 (`Int8Array`) from the sample
float-array (type 20) reader. -/
theorem claim_C10_witness :
    readInto idPipe sampleReader 12 ([] : List Int) [] 65536 512 =
      ⟨.error (.invalidDataType 20 12), [], []⟩ ∧
    read idPipe 0 sampleReader 12 [] 65536 512 =
      (.error (.invalidDataType 20 12), []) := by
  constructor
  · exact claim_C10.1 idPipe sampleReader sampleVar 12 [] [] 65536 512
      rfl (by decide)
  · exact claim_C10.2 idPipe 0 sampleReader sampleVar 12 [] 65536 512
      rfl (by decide)

mutual

/-- The collector appends, after its accumulator, exactly the recorded
entries of the depth-first node listing rooted at the visited node. -/
theorem collectVariableMetadata_eq (t : VarTree) (path : List String)
    (acc : List (String × OffsetSize)) :
    collectVariableMetadata t path acc =
      acc ++ (dfsNodes t path).filterMap recordedEntry := by
  match t with
  | .mk name loc children =>
    rw [collectVariableMetadata, dfsNodes]
    rw [collectChildrenMetadata_eq children]
    cases name with
    | none =>
      cases loc with
      | none => simp [recordedEntry, ownEntry]
      | some os => simp [recordedEntry, ownEntry]
    | some nm =>
      cases loc with
      | none => simp [recordedEntry, ownEntry]
      | some os => simp [recordedEntry, ownEntry]

/-- Forest version of `collectVariableMetadata_eq`. -/
theorem collectChildrenMetadata_eq (cs : List VarTree) (path : List String)
    (acc : List (String × OffsetSize)) :
    collectChildrenMetadata cs path acc =
      acc ++ (dfsNodesF cs path).filterMap recordedEntry := by
  match cs with
  | [] => simp [collectChildrenMetadata, dfsNodesF]
  | c :: cs0 =>
    rw [collectChildrenMetadata, dfsNodesF]
    rw [collectChildrenMetadata_eq cs0, collectVariableMetadata_eq c]
    simp [List.filterMap_append]

end

/-- C9: the flatten-tree walk is the depth-first traversal of the whole
metadata tree, recording a `"parent/child/.../name" ↦ OffsetSize` entry
exactly for the nodes that have both a name and a resolvable location:
`getFlatVariableMetadata` equals the `recordedEntry` filter-map of the
complete depth-first node listing, so every node is walked, and a node
lacking a name or a location contributes no entry of its own (while its
children are still visited). -/
theorem claim_C9 (t : VarTree) :
    getFlatVariableMetadata t = (dfsNodes t []).filterMap recordedEntry := by
  rw [getFlatVariableMetadata, collectVariableMetadata_eq]
  simp

end OmFile
